import Mathlib

/-!
Verification of the `cwh` prefix-notation REPL calculator (`src/main.rs`).

The embedding below mirrors the Rust source:
machine integers (`isize` / `usize`) are modelled as `ℤ` / `ℕ`; arithmetic
is idealized as unbounded (machine overflow is out of scope), but the range
checks performed by Rust's `str::parse` for 64-bit `isize` / `usize` are kept
in the literal parsers, since they decide how a token is classified.
Rust's `Result<T, String>` is `Except String T`.  The token iterator
(`SplitWhitespace`) is a `List String` threaded explicitly: each function
returns the remaining tokens alongside its result.
-/

/-- The four binary operators of `src/main.rs` (`enum BinaryOperator`). -/
inductive BinaryOperator
  | Division
  | Minus
  | Multiplication
  | Plus
deriving DecidableEq

/-- `impl FromStr for BinaryOperator`. -/
def BinaryOperator.fromStr (s : String) : Option BinaryOperator :=
  match s with
  | "/" => some BinaryOperator.Division
  | "-" => some BinaryOperator.Minus
  | "*" => some BinaryOperator.Multiplication
  | "+" => some BinaryOperator.Plus
  | _ => none

/-- `fn factorial(n: usize) -> usize`: `if n == 0 { 1 } else { n * factorial(n - 1) }`,
idealized to unbounded naturals; `factorialChecked` below keeps the `usize`
overflow check of the multiplication. -/
def factorial : ℕ → ℕ
  | 0 => 1
  | n + 1 => (n + 1) * factorial n

/-- The six unary operators of `src/main.rs` (`enum UnaryOperator`). -/
inductive UnaryOperator
  | Abs
  | Factorial
  | Negative
  | Predecessor
  | Signum
  | Successor
deriving DecidableEq

/-- `impl FromStr for UnaryOperator`. -/
def UnaryOperator.fromStr (s : String) : Option UnaryOperator :=
  match s with
  | "abs" => some UnaryOperator.Abs
  | "fact" => some UnaryOperator.Factorial
  | "!" => some UnaryOperator.Factorial
  | "neg" => some UnaryOperator.Negative
  | "pred" => some UnaryOperator.Predecessor
  | "sgn" => some UnaryOperator.Signum
  | "succ" => some UnaryOperator.Successor
  | _ => none

/-- The expression tree (`enum Value`). -/
inductive Value
  | BinaryOperation (operator : BinaryOperator) (left : Value) (right : Value)
  | Int (int : ℤ)
  | UnaryOperation (operator : UnaryOperator) (arg : Value)
  | Variable (idx : ℕ)
deriving DecidableEq

/-- `usize::MAX` on a 64-bit target (= 2^64 - 1). -/
def USIZE_MAX : ℕ := 18446744073709551615

/-- `isize::MAX` on a 64-bit target (= 2^63 - 1). -/
def ISIZE_MAX : ℤ := 9223372036854775807

/-- `isize::MIN` on a 64-bit target (= -2^63). -/
def ISIZE_MIN : ℤ := -9223372036854775808

/-- Value of a list of decimal digit characters, most significant first. -/
def digitsToNat (cs : List Char) : ℕ :=
  cs.foldl (fun acc c => acc * 10 + (c.toNat - '0'.toNat)) 0

/-- A non-empty all-digit character sequence parses to its decimal value. -/
def parseNatDigits (cs : List Char) : Option ℕ :=
  if cs ≠ [] ∧ cs.all Char.isDigit = true then some (digitsToNat cs) else none

/-- Rust's unsigned integer parsing accepts one optional leading `+`. -/
def stripPlus : List Char → List Char
  | [] => []
  | c :: t => if c == '+' then t else c :: t

/-- Range check of `usize::from_str` on the parsed magnitude. -/
def usizeInRange (n : ℕ) : Option ℕ :=
  if n ≤ USIZE_MAX then some n else none

/-- `str::parse::<usize>()`: optional `+` sign, digits, 64-bit range check. -/
def parseUsizeChars (cs : List Char) : Option ℕ :=
  (parseNatDigits (stripPlus cs)).bind usizeInRange

/-- Range check of `isize::from_str` for a non-negative result. -/
def isizeInRangePos (n : ℕ) : Option ℤ :=
  if (n : ℤ) ≤ ISIZE_MAX then some (n : ℤ) else none

/-- Range check of `isize::from_str` for a negated result. -/
def isizeInRangeNeg (n : ℕ) : Option ℤ :=
  if ISIZE_MIN ≤ -(n : ℤ) then some (-(n : ℤ)) else none

/-- `str::parse::<isize>()` on the character list: optional sign, digits, range. -/
def parseIsizeChars : List Char → Option ℤ
  | [] => none
  | c :: t =>
    if c == '+' then (parseNatDigits t).bind isizeInRangePos
    else if c == '-' then (parseNatDigits t).bind isizeInRangeNeg
    else (parseNatDigits (c :: t)).bind isizeInRangePos

/-- `str::parse::<isize>()` on a string token. -/
def parseIsize (s : String) : Option ℤ :=
  parseIsizeChars s.toList

/-- Guard of the first `parse_value` match arm:
`var.chars().nth(0).unwrap_or_default() == '$'` (the default `'\0'` is not `'$'`,
so the empty string yields `false`). -/
def isDollar (s : String) : Bool :=
  match s.toList with
  | [] => false
  | c :: _ => c == '$'

/-- Fuelled version of `fn parse_value`.  The fuel argument only serves
termination: the function is always called with more fuel than there are
tokens, and each recursive call consumes at least one token, so the
fuel-exhausted arm is unreachable (see `parseValueF_fuel_irrel`). -/
def parseValueF : ℕ → List String → Except String Value × List String
  | _, [] => (Except.error "Expected arguments at the end of input.", [])
  | 0, ts => (Except.error "Parser fuel exhausted.", ts)
  | fuel + 1, s :: rest =>
    if isDollar s then
      match parseUsizeChars (s.toList.drop 1) with
      | some idx => (Except.ok (Value.Variable idx), rest)
      | none =>
        (Except.error ("Expected valid number as a variable name, instead got '" ++ s ++ "'."),
         rest)
    else
      match parseIsize s with
      | some n => (Except.ok (Value.Int n), rest)
      | none =>
        match BinaryOperator.fromStr s with
        | some op =>
          match (parseValueF fuel rest).1, (parseValueF fuel (parseValueF fuel rest).2).1 with
          | Except.ok left, Except.ok right =>
            (Except.ok (Value.BinaryOperation op left right),
             (parseValueF fuel (parseValueF fuel rest).2).2)
          | _, _ =>
            (Except.error ("Binary operator '" ++ s ++ "' expected two arguments."),
             (parseValueF fuel (parseValueF fuel rest).2).2)
        | none =>
          match UnaryOperator.fromStr s with
          | some op =>
            match (parseValueF fuel rest).1 with
            | Except.ok value =>
              (Except.ok (Value.UnaryOperation op value), (parseValueF fuel rest).2)
            | Except.error _ =>
              (Except.error ("Unary operator '" ++ s ++ "' expected an argument."),
               (parseValueF fuel rest).2)
          | none => (Except.error ("Unexpected input '" ++ s ++ "'."), rest)

/-- `fn parse_value(iter: &mut SplitWhitespace) -> Result<Value, String>`,
returning the parse result together with the tokens the iterator has left. -/
def parse_value (ts : List String) : Except String Value × List String :=
  parseValueF (ts.length + 1) ts

/-- `fn evaluate_value(value: &Value, vars: &[isize]) -> Result<isize, String>`,
idealized to unbounded integers: machine overflow is ignored here.  Rust `/`
on integers truncates toward zero, hence `Int.tdiv`.  The machine-precision
refinement with 64-bit values and overflow panics is `evaluate_value_isize`
below. -/
def evaluate_value : Value → List ℤ → Except String ℤ
  | Value.BinaryOperation op l r, vars =>
    match evaluate_value l vars, evaluate_value r vars with
    | Except.ok lhs, Except.ok rhs =>
      match op with
      | BinaryOperator.Division =>
        if rhs = 0 then Except.error "Division by zero." else Except.ok (lhs.tdiv rhs)
      | BinaryOperator.Minus => Except.ok (lhs - rhs)
      | BinaryOperator.Multiplication => Except.ok (lhs * rhs)
      | BinaryOperator.Plus => Except.ok (lhs + rhs)
    | Except.error msg, _ => Except.error msg
    | _, Except.error msg => Except.error msg
  | Value.Int int, _ => Except.ok int
  | Value.UnaryOperation op arg, vars =>
    match evaluate_value arg vars with
    | Except.ok int =>
      match op with
      | UnaryOperator.Abs => Except.ok |int|
      | UnaryOperator.Negative => Except.ok (-int)
      | UnaryOperator.Factorial =>
        if 0 < int then Except.ok ((factorial int.toNat : ℕ) : ℤ)
        else Except.error "Expected a non-negative number as an! argument to factorial."
      | UnaryOperator.Predecessor => Except.ok (int - 1)
      | UnaryOperator.Signum => Except.ok int.sign
      | UnaryOperator.Successor => Except.ok (int + 1)
    | Except.error msg => Except.error msg
  | Value.Variable idx, vars =>
    match vars.get? idx with
    | none => Except.error ("Invalid variable index '" ++ toString idx ++ "'.")
    | some int => Except.ok int

/-- Accumulator-based splitter over the characters of a line. -/
def splitWSAux : List Char → List Char → List String
  | [], acc => if acc = [] then [] else [String.mk acc.reverse]
  | c :: cs, acc =>
    if c.isWhitespace then
      (if acc = [] then [] else [String.mk acc.reverse]) ++ splitWSAux cs []
    else splitWSAux cs (c :: acc)

/-- Rust `str::split_whitespace`: maximal runs of non-whitespace characters,
in order; empty tokens never occur.  Lean's `Char.isWhitespace` covers only
ASCII space/tab/CR/LF where Rust splits on all Unicode whitespace; the lines
considered here contain only ASCII spaces. -/
def splitWhitespace (line : String) : List String :=
  splitWSAux line.toList []

/-- `fn process_line(line: String, history: &[isize]) -> Result<isize, String>`:
parse, require the token stream exhausted, then evaluate. -/
def process_line (line : String) (history : List ℤ) : Except String ℤ :=
  match parse_value (splitWhitespace line) with
  | (Except.ok value, rest) =>
    match rest with
    | [] => evaluate_value value history
    | t :: _ => Except.error ("Expected end of line, instead found '" ++ t ++ "'.")
  | (Except.error msg, _) => Except.error msg

/-- The history-threading loop of `fn main`, with the I/O stripped: each line
is processed against the current history and the result is appended on
success; on error the history is left unchanged. -/
def run_session : List String → List ℤ → List ℤ
  | [], history => history
  | l :: ls, history =>
    match process_line l history with
    | Except.ok result => run_session ls (history ++ [result])
    | Except.error _ => run_session ls history

/-- The results of the successfully evaluated lines of a session, in order. -/
def session_outputs : List String → List ℤ → List ℤ
  | [], _ => []
  | l :: ls, history =>
    match process_line l history with
    | Except.ok result => result :: session_outputs ls (history ++ [result])
    | Except.error _ => session_outputs ls history

/-- Outcome of a machine-precision evaluation: an `ok` value, a recoverable
`err` (Rust's `Result::Err`), or an arithmetic-overflow `panic`, which in
Rust aborts the program and is not a `Result` at all. -/
inductive RunResult
  | ok (val : ℤ)
  | err (msg : String)
  | panic (msg : String)
deriving DecidableEq

/-- Checked `isize` arithmetic of an overflow-checks build: the value when it
is representable, otherwise the overflow panic. -/
def checkedIsize (v : ℤ) (msg : String) : RunResult :=
  if ISIZE_MIN ≤ v ∧ v ≤ ISIZE_MAX then RunResult.ok v else RunResult.panic msg

/-- `fn factorial` with its `usize` multiplication checked: `none` is the
multiply-with-overflow panic, first hit exactly when the product leaves the
`usize` range (the intermediate products are the smaller factorials, so the
first overflowing multiply occurs iff the final product overflows). -/
def factorialChecked : ℕ → Option ℕ
  | 0 => some 1
  | n + 1 =>
    (factorialChecked n).bind
      (fun f => if (n + 1) * f ≤ USIZE_MAX then some ((n + 1) * f) else none)

/-- The `as isize` cast in `factorial(int as usize) as isize` (main.rs:143):
two's-complement reinterpretation of a `usize`; an `as` cast never panics. -/
def usize_as_isize (n : ℕ) : ℤ :=
  if (n : ℤ) ≤ ISIZE_MAX then (n : ℤ) else (n : ℤ) - 18446744073709551616

/-- `fn evaluate_value` at machine precision, refining `evaluate_value`:
values are 64-bit `isize`, with the overflow panics of a checked
(debug-profile) build.  The division-overflow panic at `isize::MIN / -1` is
emitted by rustc in every profile.  Rust evaluates the operand tuple left to
right before matching, so a left panic precedes a right panic, and a right
panic occurs even when the left operand produced an `Err`; among two `Err`s
the left one wins, as in the source's match-arm order. -/
def evaluate_value_isize : Value → List ℤ → RunResult
  | Value.BinaryOperation op l r, vars =>
    match evaluate_value_isize l vars, evaluate_value_isize r vars with
    | RunResult.panic p, _ => RunResult.panic p
    | _, RunResult.panic p => RunResult.panic p
    | RunResult.ok lhs, RunResult.ok rhs =>
      match op with
      | BinaryOperator.Division =>
        if rhs = 0 then RunResult.err "Division by zero."
        else if lhs = ISIZE_MIN ∧ rhs = -1 then
          RunResult.panic "attempt to divide with overflow"
        else RunResult.ok (lhs.tdiv rhs)
      | BinaryOperator.Minus => checkedIsize (lhs - rhs) "attempt to subtract with overflow"
      | BinaryOperator.Multiplication =>
        checkedIsize (lhs * rhs) "attempt to multiply with overflow"
      | BinaryOperator.Plus => checkedIsize (lhs + rhs) "attempt to add with overflow"
    | RunResult.err m, _ => RunResult.err m
    | _, RunResult.err m => RunResult.err m
  | Value.Int int, _ => RunResult.ok int
  | Value.UnaryOperation op arg, vars =>
    match evaluate_value_isize arg vars with
    | RunResult.panic p => RunResult.panic p
    | RunResult.err m => RunResult.err m
    | RunResult.ok int =>
      match op with
      | UnaryOperator.Abs =>
        if int = ISIZE_MIN then RunResult.panic "attempt to negate with overflow"
        else RunResult.ok |int|
      | UnaryOperator.Negative =>
        if int = ISIZE_MIN then RunResult.panic "attempt to negate with overflow"
        else RunResult.ok (-int)
      | UnaryOperator.Factorial =>
        if 0 < int then
          match factorialChecked int.toNat with
          | some f => RunResult.ok (usize_as_isize f)
          | none => RunResult.panic "attempt to multiply with overflow"
        else RunResult.err "Expected a non-negative number as an! argument to factorial."
      | UnaryOperator.Predecessor => checkedIsize (int - 1) "attempt to subtract with overflow"
      | UnaryOperator.Signum => RunResult.ok int.sign
      | UnaryOperator.Successor => checkedIsize (int + 1) "attempt to add with overflow"
  | Value.Variable idx, vars =>
    match vars.get? idx with
    | none => RunResult.err ("Invalid variable index '" ++ toString idx ++ "'.")
    | some int => RunResult.ok int

/-- `fn process_line` composed with the machine-precision evaluator. -/
def process_line_isize (line : String) (history : List ℤ) : RunResult :=
  match parse_value (splitWhitespace line) with
  | (Except.ok value, rest) =>
    match rest with
    | [] => evaluate_value_isize value history
    | t :: _ => RunResult.err ("Expected end of line, instead found '" ++ t ++ "'.")
  | (Except.error msg, _) => RunResult.err msg

/-- The parser never invents tokens: the leftover stream is a suffix-length
bound of the input (each call consumes at least the tokens it read). -/
theorem parseValueF_consumes : ∀ (fuel : ℕ) (ts : List String),
    ((parseValueF fuel ts).2).length ≤ ts.length := by
  intro fuel
  induction fuel with
  | zero =>
    intro ts
    cases ts <;> simp [parseValueF]
  | succ f ih =>
    intro ts
    cases ts with
    | nil => simp [parseValueF]
    | cons s rest =>
      have h1 : ((parseValueF f rest).2).length ≤ rest.length := ih rest
      have h2 : ((parseValueF f (parseValueF f rest).2).2).length ≤
          ((parseValueF f rest).2).length := ih _
      simp only [parseValueF, List.length_cons]
      split
      · split <;> simp
      · split
        · simp
        · split
          · split
            · simp; omega
            · simp; omega
          · split
            · split
              · simp; omega
              · simp; omega
            · simp

/-- Any two sufficient fuel values give the same parse. -/
theorem parseValueF_fuel_irrel : ∀ (f₁ : ℕ) (ts : List String) (f₂ : ℕ),
    ts.length < f₁ → ts.length < f₂ → parseValueF f₁ ts = parseValueF f₂ ts := by
  intro f₁
  induction f₁ with
  | zero =>
    intro ts f₂ h₁ _
    exact absurd h₁ (Nat.not_lt_zero _)
  | succ f ih =>
    intro ts f₂ h₁ h₂
    cases ts with
    | nil =>
      cases f₂ with
      | zero => exact absurd h₂ (Nat.not_lt_zero _)
      | succ g => simp [parseValueF]
    | cons s rest =>
      cases f₂ with
      | zero => exact absurd h₂ (Nat.not_lt_zero _)
      | succ g =>
        simp only [List.length_cons] at h₁ h₂
        have hf : rest.length < f := by omega
        have hg : rest.length < g := by omega
        have e₁ : parseValueF f rest = parseValueF g rest := ih rest g hf hg
        have e₂ : parseValueF f (parseValueF g rest).2 = parseValueF g (parseValueF g rest).2 :=
          ih _ g (lt_of_le_of_lt (parseValueF_consumes g rest) hf)
            (lt_of_le_of_lt (parseValueF_consumes g rest) hg)
        simp only [parseValueF]
        rw [e₁, e₂]

/-- Branch lemma: a `$`-token with a valid index parses as a variable reference. -/
theorem pv_var_ok (s : String) (rest : List String) (idx : ℕ)
    (hd : isDollar s = true) (hp : parseUsizeChars (s.toList.drop 1) = some idx) :
    parse_value (s :: rest) = (Except.ok (Value.Variable idx), rest) := by
  simp only [List.drop_one, String.toList] at hp
  simp [parse_value, parseValueF, hd, hp]

/-- Branch lemma: a `$`-token whose remainder is not a valid index fails. -/
theorem pv_var_err (s : String) (rest : List String)
    (hd : isDollar s = true) (hp : parseUsizeChars (s.toList.drop 1) = none) :
    parse_value (s :: rest) =
      (Except.error ("Expected valid number as a variable name, instead got '" ++ s ++ "'."),
       rest) := by
  simp only [List.drop_one, String.toList] at hp
  simp [parse_value, parseValueF, hd, hp]

/-- Branch lemma: a token that parses as an `isize` becomes an integer literal. -/
theorem pv_lit (s : String) (rest : List String) (n : ℤ)
    (hd : isDollar s = false) (hi : parseIsize s = some n) :
    parse_value (s :: rest) = (Except.ok (Value.Int n), rest) := by
  simp [parse_value, parseValueF, hd, hi]

/-- Branch lemma: a token matching none of the classification rules fails. -/
theorem pv_unrec (s : String) (rest : List String)
    (hd : isDollar s = false) (hi : parseIsize s = none)
    (hb : BinaryOperator.fromStr s = none) (hu : UnaryOperator.fromStr s = none) :
    parse_value (s :: rest) = (Except.error ("Unexpected input '" ++ s ++ "'."), rest) := by
  simp [parse_value, parseValueF, hd, hi, hb, hu]

/-- Branch lemma: a binary operator with two successful operand parses. -/
theorem pv_bin_ok (s : String) (op : BinaryOperator) (rest m₁ m₂ : List String) (l r : Value)
    (hd : isDollar s = false) (hi : parseIsize s = none)
    (hb : BinaryOperator.fromStr s = some op)
    (h₁ : parse_value rest = (Except.ok l, m₁))
    (h₂ : parse_value m₁ = (Except.ok r, m₂)) :
    parse_value (s :: rest) = (Except.ok (Value.BinaryOperation op l r), m₂) := by
  have h₁' : parseValueF (rest.length + 1) rest = (Except.ok l, m₁) := h₁
  have hm : m₁.length ≤ rest.length := by
    have hc := parseValueF_consumes (rest.length + 1) rest
    rw [h₁'] at hc
    exact hc
  have h₂' : parseValueF (rest.length + 1) m₁ = (Except.ok r, m₂) := by
    rw [parseValueF_fuel_irrel (rest.length + 1) m₁ (m₁.length + 1) (by omega) (by omega)]
    exact h₂
  simp [parse_value, parseValueF, hd, hi, hb, h₁', h₂']

/-- Branch lemma: a binary operator whose first operand parse fails reports
only its own arity error. -/
theorem pv_bin_err_left (s : String) (op : BinaryOperator) (rest m₁ : List String) (e : String)
    (hd : isDollar s = false) (hi : parseIsize s = none)
    (hb : BinaryOperator.fromStr s = some op)
    (h₁ : parse_value rest = (Except.error e, m₁)) :
    (parse_value (s :: rest)).1 =
      Except.error ("Binary operator '" ++ s ++ "' expected two arguments.") := by
  have h₁' : parseValueF (rest.length + 1) rest = (Except.error e, m₁) := h₁
  simp [parse_value, parseValueF, hd, hi, hb, h₁']

/-- Branch lemma: a binary operator whose second operand parse fails reports
only its own arity error. -/
theorem pv_bin_err_right (s : String) (op : BinaryOperator) (rest m₁ m₂ : List String)
    (l : Value) (e : String)
    (hd : isDollar s = false) (hi : parseIsize s = none)
    (hb : BinaryOperator.fromStr s = some op)
    (h₁ : parse_value rest = (Except.ok l, m₁))
    (h₂ : parse_value m₁ = (Except.error e, m₂)) :
    (parse_value (s :: rest)).1 =
      Except.error ("Binary operator '" ++ s ++ "' expected two arguments.") := by
  have h₁' : parseValueF (rest.length + 1) rest = (Except.ok l, m₁) := h₁
  have hm : m₁.length ≤ rest.length := by
    have hc := parseValueF_consumes (rest.length + 1) rest
    rw [h₁'] at hc
    exact hc
  have h₂' : parseValueF (rest.length + 1) m₁ = (Except.error e, m₂) := by
    rw [parseValueF_fuel_irrel (rest.length + 1) m₁ (m₁.length + 1) (by omega) (by omega)]
    exact h₂
  simp [parse_value, parseValueF, hd, hi, hb, h₁', h₂']

/-- Branch lemma: a unary operator with a successful operand parse. -/
theorem pv_un_ok (s : String) (op : UnaryOperator) (rest m₁ : List String) (v : Value)
    (hd : isDollar s = false) (hi : parseIsize s = none)
    (hb : BinaryOperator.fromStr s = none) (hu : UnaryOperator.fromStr s = some op)
    (h₁ : parse_value rest = (Except.ok v, m₁)) :
    parse_value (s :: rest) = (Except.ok (Value.UnaryOperation op v), m₁) := by
  have h₁' : parseValueF (rest.length + 1) rest = (Except.ok v, m₁) := h₁
  simp [parse_value, parseValueF, hd, hi, hb, hu, h₁']

/-- Branch lemma: a unary operator whose operand parse fails reports only its
own arity error. -/
theorem pv_un_err (s : String) (op : UnaryOperator) (rest m₁ : List String) (e : String)
    (hd : isDollar s = false) (hi : parseIsize s = none)
    (hb : BinaryOperator.fromStr s = none) (hu : UnaryOperator.fromStr s = some op)
    (h₁ : parse_value rest = (Except.error e, m₁)) :
    parse_value (s :: rest) =
      (Except.error ("Unary operator '" ++ s ++ "' expected an argument."), m₁) := by
  have h₁' : parseValueF (rest.length + 1) rest = (Except.error e, m₁) := h₁
  simp [parse_value, parseValueF, hd, hi, hb, hu, h₁']

/-- Tokens recognised as binary operators are exactly `/`, `-`, `*`, `+`. -/
theorem bin_token_cases (s : String) (op : BinaryOperator)
    (h : BinaryOperator.fromStr s = some op) :
    s = "/" ∨ s = "-" ∨ s = "*" ∨ s = "+" := by
  unfold BinaryOperator.fromStr at h
  split at h <;> simp_all

/-- A binary-operator token is not classified by the earlier rules. -/
theorem bin_token_guards (s : String) (op : BinaryOperator)
    (h : BinaryOperator.fromStr s = some op) :
    isDollar s = false ∧ parseIsize s = none := by
  rcases bin_token_cases s op h with h' | h' | h' | h' <;> subst h' <;>
    exact ⟨by decide, by decide⟩

/-- Tokens recognised as unary operators are exactly the seven fixed words. -/
theorem un_token_cases (s : String) (op : UnaryOperator)
    (h : UnaryOperator.fromStr s = some op) :
    s = "abs" ∨ s = "fact" ∨ s = "!" ∨ s = "neg" ∨ s = "pred" ∨ s = "sgn" ∨ s = "succ" := by
  unfold UnaryOperator.fromStr at h
  split at h <;> simp_all

/-- A unary-operator token is not classified by the earlier rules. -/
theorem un_token_guards (s : String) (op : UnaryOperator)
    (h : UnaryOperator.fromStr s = some op) :
    isDollar s = false ∧ parseIsize s = none ∧ BinaryOperator.fromStr s = none := by
  rcases un_token_cases s op h with h' | h' | h' | h' | h' | h' | h' <;> subst h' <;>
    exact ⟨by decide, by decide, by decide⟩

/-- A token that parses as an `isize` does not start with `$`. -/
theorem parseIsize_not_dollar (s : String) (a : ℤ) (h : parseIsize s = some a) :
    isDollar s = false := by
  unfold parseIsize at h
  unfold isDollar
  cases hs : s.toList with
  | nil => rfl
  | cons c t =>
    rw [hs] at h
    by_cases hc : c = '$'
    · subst hc
      exfalso
      have e₁ : ('$' == '+') = false := by decide
      have e₂ : ('$' == '-') = false := by decide
      have e₃ : Char.isDigit '$' = false := by decide
      simp [parseIsizeChars, e₁, e₂, parseNatDigits, e₃] at h
    · simp [hc]

/-- The source `factorial` agrees with `Nat.factorial`, the product 1 × ⋯ × n. -/
theorem factorial_eq_nat_factorial : ∀ n : ℕ, factorial n = Nat.factorial n := by
  intro n
  induction n with
  | zero => rfl
  | succ k ih => simp [factorial, Nat.factorial, ih]

/-- Below the overflow boundary, `factorialChecked` agrees with
`Nat.factorial` and the result fits in `isize`. -/
theorem factorialChecked_small : ∀ n < 21,
    factorialChecked n = some (Nat.factorial n) ∧
    ((Nat.factorial n : ℕ) : ℤ) ≤ ISIZE_MAX := by decide

/-- At 21 and beyond, the checked factorial hits the multiply overflow. -/
theorem factorialChecked_overflow : ∀ n : ℕ, 21 ≤ n → factorialChecked n = none := by
  intro n hn
  induction n with
  | zero => omega
  | succ k ih =>
    by_cases hk : 21 ≤ k
    · simp [factorialChecked, ih hk]
    · have hke : k = 20 := by omega
      subst hke
      decide

/-- The session history is the initial history extended by exactly the
successful results, in order. -/
theorem run_session_eq : ∀ (lines : List String) (history : List ℤ),
    run_session lines history = history ++ session_outputs lines history := by
  intro lines
  induction lines with
  | nil => intro history; simp [run_session, session_outputs]
  | cons l ls ih =>
    intro history
    cases hp : process_line l history with
    | ok r => simp [run_session, session_outputs, hp, ih]
    | error msg => simp [run_session, session_outputs, hp, ih]

/-- C1 counterexample: the tokens `/ -9223372036854775808 -1` parse as the
division of `isize::MIN` by `-1`, and its machine evaluation is the
(always-emitted) division-overflow panic, not the truncating quotient the
unqualified claim promises for every `b ≠ 0`. -/
theorem C1_division_counterexample :
    parse_value ["/", "-9223372036854775808", "-1"] =
      (Except.ok (Value.BinaryOperation BinaryOperator.Division
        (Value.Int (-9223372036854775808)) (Value.Int (-1))), []) ∧
    evaluate_value_isize (Value.BinaryOperation BinaryOperator.Division
        (Value.Int (-9223372036854775808)) (Value.Int (-1))) [] =
      RunResult.panic "attempt to divide with overflow" ∧
    evaluate_value_isize (Value.BinaryOperation BinaryOperator.Division
        (Value.Int (-9223372036854775808)) (Value.Int (-1))) [] ≠
      RunResult.ok ((-9223372036854775808 : ℤ).tdiv (-1)) :=
  ⟨rfl, rfl, by decide⟩

/-- C1 (amended): for all integers `a`, `b` with `b ≠ 0` — except
`a = isize::MIN` with `b = -1`, where the always-checked division overflows
and the program panics — the tree parsed from `/ a b` machine-evaluates
against any history to the truncating quotient `a.tdiv b`; a division node
whose right operand evaluates to 0 fails with the division-by-zero error;
and with a nonzero right operand the division itself never fails, apart from
that overflow panic. -/
theorem C1_division_correct :
    (∀ (sa sb : String) (a b : ℤ) (history : List ℤ),
        parseIsize sa = some a → parseIsize sb = some b → b ≠ 0 →
        ¬(a = ISIZE_MIN ∧ b = -1) →
        parse_value ["/", sa, sb] =
          (Except.ok (Value.BinaryOperation BinaryOperator.Division (Value.Int a) (Value.Int b)),
           []) ∧
        evaluate_value_isize
            (Value.BinaryOperation BinaryOperator.Division (Value.Int a) (Value.Int b)) history =
          RunResult.ok (a.tdiv b)) ∧
    (∀ (l r : Value) (history : List ℤ) (lhs : ℤ),
        evaluate_value_isize l history = RunResult.ok lhs →
        evaluate_value_isize r history = RunResult.ok 0 →
        evaluate_value_isize (Value.BinaryOperation BinaryOperator.Division l r) history =
          RunResult.err "Division by zero.") ∧
    (∀ (l r : Value) (history : List ℤ) (lhs rhs : ℤ),
        evaluate_value_isize l history = RunResult.ok lhs →
        evaluate_value_isize r history = RunResult.ok rhs → rhs ≠ 0 →
        ¬(lhs = ISIZE_MIN ∧ rhs = -1) →
        evaluate_value_isize (Value.BinaryOperation BinaryOperator.Division l r) history =
          RunResult.ok (lhs.tdiv rhs)) := by
  refine ⟨?_, ?_, ?_⟩
  · intro sa sb a b history ha hb hbne hov
    have hda : isDollar sa = false := parseIsize_not_dollar sa a ha
    have hdb : isDollar sb = false := parseIsize_not_dollar sb b hb
    have h2 : parse_value [sb] = (Except.ok (Value.Int b), []) := pv_lit sb [] b hdb hb
    have h1 : parse_value [sa, sb] = (Except.ok (Value.Int a), [sb]) := pv_lit sa [sb] a hda ha
    refine ⟨pv_bin_ok "/" BinaryOperator.Division [sa, sb] [sb] [] (Value.Int a) (Value.Int b)
      (by decide) (by decide) rfl h1 h2, ?_⟩
    simp [evaluate_value_isize, hbne, hov]
  · intro l r history lhs hl hr
    simp [evaluate_value_isize, hl, hr]
  · intro l r history lhs rhs hl hr hrne hov
    simp [evaluate_value_isize, hl, hr, hrne, hov]

/-- C1 witness: `/ 10 2` parses and machine-evaluates to 5; `/ 3 0` fails. -/
theorem C1_division_correct_witness :
    (parse_value ["/", "10", "2"] =
      (Except.ok (Value.BinaryOperation BinaryOperator.Division (Value.Int 10) (Value.Int 2)),
       []) ∧
     evaluate_value_isize
       (Value.BinaryOperation BinaryOperator.Division (Value.Int 10) (Value.Int 2)) [] =
       RunResult.ok 5) ∧
    evaluate_value_isize
      (Value.BinaryOperation BinaryOperator.Division (Value.Int 3) (Value.Int 0)) [] =
      RunResult.err "Division by zero." :=
  ⟨by
    have h := C1_division_correct.1 "10" "2" 10 2 [] rfl rfl (by decide) (by decide)
    exact ⟨h.1, h.2⟩,
   C1_division_correct.2.1 (Value.Int 3) (Value.Int 0) [] 3 rfl rfl⟩

/-- C2 counterexample: a factorial node whose operand evaluates to 21 > 0
does not succeed with the product 1 × ⋯ × 21 — the `usize` multiplication
overflows and the machine evaluation panics. -/
theorem C2_factorial_counterexample :
    (0 : ℤ) < 21 ∧
    evaluate_value_isize (Value.UnaryOperation UnaryOperator.Factorial (Value.Int 21)) [] =
      RunResult.panic "attempt to multiply with overflow" ∧
    evaluate_value_isize (Value.UnaryOperation UnaryOperator.Factorial (Value.Int 21)) [] ≠
      RunResult.ok ((Nat.factorial 21 : ℕ) : ℤ) :=
  ⟨by decide, rfl, by decide⟩

/-- C2 (amended): a factorial node whose operand machine-evaluates to `x`
succeeds with the product 1 × ⋯ × `x` exactly when `0 < x ≤ 20` — for
`x ≥ 21` the `usize` multiplication overflows and a checked build panics
instead of producing the product — and fails with the non-positive-argument
error exactly when `x ≤ 0`; `fact 4` yields 24 while `fact 0` and `fact -1`
both fail (0 is rejected even though 0! is mathematically 1). -/
theorem C2_factorial_correct :
    (∀ (arg : Value) (history : List ℤ) (x : ℤ),
        evaluate_value_isize arg history = RunResult.ok x →
        (0 < x → x ≤ 20 →
          evaluate_value_isize (Value.UnaryOperation UnaryOperator.Factorial arg) history =
            RunResult.ok ((Nat.factorial x.toNat : ℕ) : ℤ)) ∧
        (x ≤ 0 →
          evaluate_value_isize (Value.UnaryOperation UnaryOperator.Factorial arg) history =
            RunResult.err "Expected a non-negative number as an! argument to factorial.") ∧
        (21 ≤ x →
          evaluate_value_isize (Value.UnaryOperation UnaryOperator.Factorial arg) history =
            RunResult.panic "attempt to multiply with overflow")) ∧
    process_line_isize "fact 4" [] = RunResult.ok 24 ∧
    process_line_isize "fact 0" [] =
      RunResult.err "Expected a non-negative number as an! argument to factorial." ∧
    process_line_isize "fact -1" [] =
      RunResult.err "Expected a non-negative number as an! argument to factorial." := by
  refine ⟨?_, rfl, rfl, rfl⟩
  intro arg history x hx
  refine ⟨?_, ?_, ?_⟩
  · intro hpos hle
    have hlt : x.toNat < 21 := by omega
    obtain ⟨hf, hb⟩ := factorialChecked_small x.toNat hlt
    simp [evaluate_value_isize, hx, hpos, hf, usize_as_isize, hb]
  · intro hle
    have hnp : ¬ (0 < x) := by omega
    simp [evaluate_value_isize, hx, hnp]
  · intro hge
    have hpos : 0 < x := by omega
    have hn : factorialChecked x.toNat = none := factorialChecked_overflow x.toNat (by omega)
    simp [evaluate_value_isize, hx, hpos, hn]

/-- C2 witness: factorial of 3 machine-evaluates to 6, factorial of 0 fails,
factorial of 25 panics on overflow. -/
theorem C2_factorial_correct_witness :
    evaluate_value_isize (Value.UnaryOperation UnaryOperator.Factorial (Value.Int 3)) [] =
      RunResult.ok 6 ∧
    evaluate_value_isize (Value.UnaryOperation UnaryOperator.Factorial (Value.Int 0)) [] =
      RunResult.err "Expected a non-negative number as an! argument to factorial." ∧
    evaluate_value_isize (Value.UnaryOperation UnaryOperator.Factorial (Value.Int 25)) [] =
      RunResult.panic "attempt to multiply with overflow" :=
  ⟨(C2_factorial_correct.1 (Value.Int 3) [] 3 rfl).1 (by decide) (by decide),
   (C2_factorial_correct.1 (Value.Int 0) [] 0 rfl).2.1 (by decide),
   (C2_factorial_correct.1 (Value.Int 25) [] 25 rfl).2.2 (by decide)⟩

/-- C3: processing `+ 3 2`, `* 2 5`, `/ $1 $0` in order from the empty
history produces the histories `[5]`, `[5, 10]` and `[5, 10, 2]`. -/
theorem C3_session_histories :
    run_session ["+ 3 2"] [] = [5] ∧
    run_session ["+ 3 2", "* 2 5"] [] = [5, 10] ∧
    run_session ["+ 3 2", "* 2 5", "/ $1 $0"] [] = [5, 10, 2] :=
  ⟨rfl, rfl, rfl⟩

/-- C4: when an operand parse of a binary (resp. unary) operator token fails,
`parse_value` reports only that operator's arity error, whatever the inner
error was. -/
theorem C4_arity_error_discards_cause :
    (∀ (s : String) (op : BinaryOperator) (rest : List String),
        BinaryOperator.fromStr s = some op →
        ((∃ e m, parse_value rest = (Except.error e, m)) ∨
         (∃ l m₁ e m₂, parse_value rest = (Except.ok l, m₁) ∧
            parse_value m₁ = (Except.error e, m₂))) →
        (parse_value (s :: rest)).1 =
          Except.error ("Binary operator '" ++ s ++ "' expected two arguments.")) ∧
    (∀ (s : String) (op : UnaryOperator) (rest : List String) (e : String) (m : List String),
        UnaryOperator.fromStr s = some op →
        parse_value rest = (Except.error e, m) →
        (parse_value (s :: rest)).1 =
          Except.error ("Unary operator '" ++ s ++ "' expected an argument.")) := by
  constructor
  · intro s op rest hb hfail
    obtain ⟨hd, hi⟩ := bin_token_guards s op hb
    rcases hfail with ⟨e, m, h₁⟩ | ⟨l, m₁, e, m₂, h₁, h₂⟩
    · exact pv_bin_err_left s op rest m e hd hi hb h₁
    · exact pv_bin_err_right s op rest m₁ m₂ l e hd hi hb h₁ h₂
  · intro s op rest e m hu h₁
    obtain ⟨hd, hi, hb⟩ := un_token_guards s op hu
    rw [pv_un_err s op rest m e hd hi hb hu h₁]

/-- C4 witness: `* 1` and a bare `succ` report the enclosing operator's
arity error, not the inner end-of-input error. -/
theorem C4_arity_error_discards_cause_witness :
    (parse_value ["*", "1"]).1 =
      Except.error "Binary operator '*' expected two arguments." ∧
    (parse_value ["succ"]).1 =
      Except.error "Unary operator 'succ' expected an argument." :=
  ⟨C4_arity_error_discards_cause.1 "*" BinaryOperator.Multiplication ["1"] rfl
     (Or.inr ⟨Value.Int 1, [], "Expected arguments at the end of input.", [], rfl, rfl⟩),
   C4_arity_error_discards_cause.2 "succ" UnaryOperator.Successor []
     "Expected arguments at the end of input." [] rfl rfl⟩

/-- C5: the history is exactly the initial history followed by the results of
the successful lines in order; a successful line appends its result and a
failed line leaves the history unchanged. -/
theorem C5_history_append_only :
    (∀ (lines : List String) (history : List ℤ),
        run_session lines history = history ++ session_outputs lines history) ∧
    (∀ (l : String) (ls : List String) (history : List ℤ) (r : ℤ),
        process_line l history = Except.ok r →
        run_session (l :: ls) history = run_session ls (history ++ [r])) ∧
    (∀ (l : String) (ls : List String) (history : List ℤ) (msg : String),
        process_line l history = Except.error msg →
        run_session (l :: ls) history = run_session ls history) := by
  refine ⟨run_session_eq, ?_, ?_⟩
  · intro l ls history r hp
    simp [run_session, hp]
  · intro l ls history msg hp
    simp [run_session, hp]

/-- C5 witness: a successful line appends its result, a failing line leaves
the history unchanged. -/
theorem C5_history_append_only_witness :
    run_session ["+ 3 2"] [] = run_session [] ([] ++ [5]) ∧
    run_session ["!#"] [] = run_session [] [] :=
  ⟨C5_history_append_only.2.1 "+ 3 2" [] [] 5 rfl,
   C5_history_append_only.2.2 "!#" [] [] "Unexpected input '!#'." rfl⟩

/-- C6: evaluating `Variable i` against a history succeeds with the `i`-th
element exactly when `i` is in bounds and fails with the invalid-variable-index
error naming `i` exactly when it is out of bounds. -/
theorem C6_variable_lookup :
    ∀ (history : List ℤ) (i : ℕ),
      (∀ h : i < history.length,
        evaluate_value (Value.Variable i) history = Except.ok (history.get ⟨i, h⟩)) ∧
      (history.length ≤ i →
        evaluate_value (Value.Variable i) history =
          Except.error ("Invalid variable index '" ++ toString i ++ "'.")) := by
  intro history i
  constructor
  · intro h
    simp [evaluate_value, List.getElem?_eq_getElem h, List.get_eq_getElem]
  · intro h
    simp [evaluate_value, List.getElem?_eq_none h]

/-- C6 witness: index 1 into `[5, 10]` yields 10; index 5 fails. -/
theorem C6_variable_lookup_witness :
    evaluate_value (Value.Variable 1) [5, 10] = Except.ok 10 ∧
    evaluate_value (Value.Variable 5) [5, 10] =
      Except.error "Invalid variable index '5'." :=
  ⟨(C6_variable_lookup [5, 10] 1).1 (by decide),
   (C6_variable_lookup [5, 10] 5).2 (by decide)⟩

/-- C7: if the parse of a line succeeds but a token is left over,
`process_line` returns the trailing-input error naming that token (whatever
the evaluator would have returned); evaluation happens exactly when the
token stream is fully consumed. -/
theorem C7_trailing_input :
    ∀ (line : String) (history : List ℤ),
      (∀ (v : Value) (t : String) (rest : List String),
        parse_value (splitWhitespace line) = (Except.ok v, t :: rest) →
        process_line line history =
          Except.error ("Expected end of line, instead found '" ++ t ++ "'.")) ∧
      (∀ (v : Value),
        parse_value (splitWhitespace line) = (Except.ok v, []) →
        process_line line history = evaluate_value v history) := by
  intro line history
  constructor
  · intro v t rest hp
    simp [process_line, hp]
  · intro v hp
    simp [process_line, hp]

/-- C7 witness: `1 2` fails with trailing input `2`; `7` is evaluated. -/
theorem C7_trailing_input_witness :
    process_line "1 2" [] = Except.error "Expected end of line, instead found '2'." ∧
    process_line "7" [] = evaluate_value (Value.Int 7) [] :=
  ⟨(C7_trailing_input "1 2" []).1 (Value.Int 1) "2" [] rfl,
   (C7_trailing_input "7" []).2 (Value.Int 7) rfl⟩

/-- C8: tokens are classified in the fixed priority order: `$`-prefixed
tokens are always handled by the variable rule (succeeding or failing there),
tokens parsing as integers become literals (`-5` is a literal even though
`-` is an operator symbol, while the bare `-` is binary subtraction), and a
token matching no rule fails as unrecognized, naming the token. -/
theorem C8_classification_priority :
    (∀ (s : String) (rest : List String) (idx : ℕ),
        isDollar s = true → parseUsizeChars (s.toList.drop 1) = some idx →
        parse_value (s :: rest) = (Except.ok (Value.Variable idx), rest)) ∧
    (∀ (s : String) (rest : List String),
        isDollar s = true → parseUsizeChars (s.toList.drop 1) = none →
        parse_value (s :: rest) =
          (Except.error ("Expected valid number as a variable name, instead got '" ++ s ++ "'."),
           rest)) ∧
    (∀ (s : String) (rest : List String) (n : ℤ),
        isDollar s = false → parseIsize s = some n →
        parse_value (s :: rest) = (Except.ok (Value.Int n), rest)) ∧
    parse_value ["-5"] = (Except.ok (Value.Int (-5)), []) ∧
    BinaryOperator.fromStr "-" = some BinaryOperator.Minus ∧
    parse_value ["-", "3", "2"] =
      (Except.ok (Value.BinaryOperation BinaryOperator.Minus (Value.Int 3) (Value.Int 2)), []) ∧
    (∀ (s : String) (rest : List String),
        isDollar s = false → parseIsize s = none → BinaryOperator.fromStr s = none →
        UnaryOperator.fromStr s = none →
        parse_value (s :: rest) = (Except.error ("Unexpected input '" ++ s ++ "'."), rest)) ∧
    parse_value ["!#"] = (Except.error "Unexpected input '!#'.", []) :=
  ⟨pv_var_ok, pv_var_err, pv_lit, rfl, rfl, rfl, pv_unrec, rfl⟩

/-- C8 witness: `$2` is a variable, `$a` fails as a variable name, `7` is a
literal, `foo` is unrecognized. -/
theorem C8_classification_priority_witness :
    parse_value ["$2"] = (Except.ok (Value.Variable 2), []) ∧
    parse_value ["$a"] =
      (Except.error "Expected valid number as a variable name, instead got '$a'.", []) ∧
    parse_value ["7"] = (Except.ok (Value.Int 7), []) ∧
    parse_value ["foo"] = (Except.error "Unexpected input 'foo'.", []) :=
  ⟨C8_classification_priority.1 "$2" [] 2 rfl rfl,
   C8_classification_priority.2.1 "$a" [] rfl rfl,
   C8_classification_priority.2.2.1 "7" [] 7 rfl rfl,
   C8_classification_priority.2.2.2.2.2.2.1 "foo" [] rfl rfl rfl rfl⟩

/-- C9: a token made of `+` followed by decimal digits (within the `isize`
range) parses as the integer literal of those digits, not as the addition
operator. -/
theorem C9_plus_prefixed_literal :
    (∀ (ds : List Char) (rest : List String),
        ds ≠ [] → ds.all Char.isDigit = true → (digitsToNat ds : ℤ) ≤ ISIZE_MAX →
        parse_value (String.mk ('+' :: ds) :: rest) =
          (Except.ok (Value.Int (digitsToNat ds)), rest)) ∧
    parse_value ["+5"] = (Except.ok (Value.Int 5), []) := by
  constructor
  · intro ds rest hne hdig hle
    have hd : isDollar (String.mk ('+' :: ds)) = false := rfl
    have hi' : parseIsizeChars ('+' :: ds) = some (digitsToNat ds) := by
      simp [parseIsizeChars, parseNatDigits, hne, hdig, isizeInRangePos, hle]
    have hi : parseIsize (String.mk ('+' :: ds)) = some (digitsToNat ds) := hi'
    exact pv_lit _ rest _ hd hi
  · rfl

/-- C9 witness: `+42` parses as the literal 42. -/
theorem C9_plus_prefixed_literal_witness :
    parse_value [String.mk ['+', '4', '2']] =
      (Except.ok (Value.Int (digitsToNat ['4', '2'])), []) :=
  C9_plus_prefixed_literal.1 ['4', '2'] [] (by decide) (by decide) (by decide)

/-- C10: the tokens `$` and `$-1` both fail with the invalid-variable-name
error naming the token, since the remainder after `$` is not a non-negative
index. -/
theorem C10_dollar_invalid_name :
    parse_value ["$"] =
      (Except.error "Expected valid number as a variable name, instead got '$'.", []) ∧
    parse_value ["$-1"] =
      (Except.error "Expected valid number as a variable name, instead got '$-1'.", []) :=
  ⟨rfl, rfl⟩
